import Mathlib

/-!
Verification of the hashtag-points bot (`src/main.py`).

The development shallowly embeds the bot's core decision logic:
text normalization (`clean_text`), hashtag extraction from entity spans
(`extract_hashtags_from`), the once-per-day gate (`can_post_tag`), the
score upsert (`add_point`), the balance/total queries (`get_points`,
`get_total`) and the group text handler (`handle_group_text`).

Modelling conventions:
- Python strings are `List Char` (sequences of Unicode code points);
  fixed enumeration-like fields (entity type, chat type, ISO day stamps)
  are Lean `String`s, compared only for equality, exactly as the source
  compares them.
- The two SQLite tables are lists of rows; the `PRIMARY KEY` uniqueness
  constraint is stated separately as `pkUniqueScores` / `pkUniqueTags`
  and proved to be preserved.  Each SQL statement is translated to a
  total list function (`lookupScore` for the keyed `SELECT`,
  `updateScore` for the keyed `UPDATE`, `insertScoreIfAbsent` for
  `INSERT .. ON CONFLICT DO NOTHING`, `upsertLastTag` for
  `INSERT .. ON CONFLICT DO UPDATE`).
- `current_local_date().isoformat()` is abstracted as an explicit
  `today : String` parameter, so calendar days can be quantified over.
- The two regular expressions of the source (`PLUS_ONE_PATTERN` and the
  inline `(?<!\w)#челлендж1(?!\w)` search) are embedded as executable
  matchers over code-point lists; `\s` is modelled by `pySpace` (the
  whitespace set of Python's `str.isspace`), `\w` by `isWordChar`
  (restricted to ASCII alphanumerics, underscore and the Cyrillic
  block, the alphabets occurring in the configured tags).
- `str.lower()` is modelled by `charLower`, restricted to ASCII and
  Cyrillic letters (all letters occurring in the configured tags).
-/

set_option maxHeartbeats 1000000

/-- Python's `str.isspace` / regex `\s` character class (the whitespace
set used by `str.strip()` and by `\s` in `re`): ASCII whitespace, the
C1 controls `\x1c`-`\x1f` and `\x85`, and the Unicode space separators.
Note that the zero-width characters are *not* whitespace in Python. -/
def pySpace (c : Char) : Bool :=
  c = ' ' || c = '\t' || c = '\n' || c = '\r' || c = '\x0B' || c = '\x0C' ||
  (0x1C ≤ c.toNat && c.toNat ≤ 0x1F) || c.toNat = 0x85 || c.toNat = 0xA0 ||
  c.toNat = 0x1680 || (0x2000 ≤ c.toNat && c.toNat ≤ 0x200A) ||
  c.toNat = 0x2028 || c.toNat = 0x2029 || c.toNat = 0x202F ||
  c.toNat = 0x205F || c.toNat = 0x3000

/-- The characters of the source's `ZERO_WIDTH` string:
U+200B, U+200C, U+200D, U+FEFF. -/
def isZeroWidth (c : Char) : Bool :=
  c.toNat = 0x200B || c.toNat = 0x200C || c.toNat = 0x200D || c.toNat = 0xFEFF

/-- `str.lower()` restricted to the alphabets in play: ASCII `A`-`Z`,
Cyrillic `А`-`Я` (U+0410-U+042F, lowered by +0x20) and `Ё` (U+0401 →
U+0451); every other character is fixed. -/
def charLower (c : Char) : Char :=
  if 0x41 ≤ c.toNat ∧ c.toNat ≤ 0x5A then Char.ofNat (c.toNat + 0x20)
  else if 0x410 ≤ c.toNat ∧ c.toNat ≤ 0x42F then Char.ofNat (c.toNat + 0x20)
  else if c.toNat = 0x401 then Char.ofNat 0x451
  else c

/-- Python regex `\w` restricted to the alphabets in play: ASCII
alphanumerics, underscore, and the Cyrillic block U+0400-U+04FF. -/
def isWordChar (c : Char) : Bool :=
  ('a' ≤ c && c ≤ 'z') || ('A' ≤ c && c ≤ 'Z') || ('0' ≤ c && c ≤ '9') ||
  c = '_' || (0x400 ≤ c.toNat && c.toNat ≤ 0x4FF)

/-- Python `str.strip()`: drop `pySpace` characters from both ends. -/
def pyStrip (s : List Char) : List Char :=
  ((s.dropWhile pySpace).reverse.dropWhile pySpace).reverse

/-- `re.sub(r"#\s+", "#", s)` as a left-to-right scan: after emitting a
`#`, any immediately following run of whitespace is dropped (the flag
records that the previously emitted character was `#`, with possibly
skipped whitespace in between, i.e. scanning resumes after a replaced
`#\s+` match). -/
def collapseHashAux : Bool → List Char → List Char
  | _, [] => []
  | afterHash, c :: rest =>
    if afterHash && pySpace c then collapseHashAux true rest
    else if c = '#' then '#' :: collapseHashAux true rest
    else c :: collapseHashAux false rest

/-- `clean_text` of the source: empty guard, drop `\r`, turn `\n` into a
space, `strip()`, remove the `ZERO_WIDTH` characters, collapse `#\s+`
to `#`, lowercase. -/
def clean_text (s : List Char) : List Char :=
  if s = [] then []
  else
    let s1 := (s.filter (fun c => c ≠ '\r')).map (fun c => if c = '\n' then ' ' else c)
    let s2 := pyStrip s1
    let s3 := s2.filter (fun c => !isZeroWidth c)
    let s4 := collapseHashAux false s3
    s4.map charLower

/-- A Telegram message entity: a typed span into the message text. -/
structure MessageEntity where
  type : String
  offset : Nat
  length : Nat
deriving DecidableEq, Repr

/-- The loop body of `extract_hashtags_from`: for each entity of type
`"hashtag"`, slice `text[offset : offset + length]` (Python slices
clamp at the end of the list, which `drop`/`take` reproduce) and push
its `clean_text` normalization. -/
def extractLoop (text : List Char) : List MessageEntity → List (List Char)
  | [] => []
  | e :: rest =>
    if e.type = "hashtag" then
      clean_text ((text.drop e.offset).take e.length) :: extractLoop text rest
    else extractLoop text rest

/-- `extract_hashtags_from` of the source, including its
`if not text or not entities: return []` guard (`None` is modelled as
the empty list). -/
def extract_hashtags_from (text : List Char) (entities : List MessageEntity) :
    List (List Char) :=
  if text = [] ∨ entities = [] then [] else extractLoop text entities

/-- The source's `CHALLENGE_CANON` constant. -/
def CHALLENGE_CANON : List Char := "#челлендж1".toList

/-- Match a literal pattern as a prefix; return the remaining suffix. -/
def matchLit : List Char → List Char → Option (List Char)
  | [], rest => some rest
  | _ :: _, [] => none
  | p :: ps, c :: cs => if p = c then matchLit ps cs else none

/-- The `(\s|$)` trailing boundary of `PLUS_ONE_PATTERN`. -/
def wsOrEnd : List Char → Bool
  | [] => true
  | c :: _ => pySpace c

/-- Match a literal alternative of `PLUS_ONE_PATTERN` followed by its
`(\s|$)` boundary. -/
def litBoundary (pat s : List Char) : Bool :=
  match matchLit pat s with
  | some r => wsOrEnd r
  | none => false

/-- The `#\s*\+\s*1(\s|$)` alternative of `PLUS_ONE_PATTERN`
(the `\s*` runs are maximal; no backtracking is possible because `+`
and `1` are not whitespace). -/
def plusHashNumAt (s : List Char) : Bool :=
  match s with
  | '#' :: r1 =>
    match r1.dropWhile pySpace with
    | '+' :: r2 =>
      match r2.dropWhile pySpace with
      | '1' :: r3 => wsOrEnd r3
      | _ => false
    | _ => false
  | _ => false

/-- One position of `PLUS_ONE_PATTERN` (after its `(^|\s)` leading
boundary): any of the alternatives `#\s*\+\s*1`, `#балл(ы)?`, `#очки`,
`#score`, `#points?`, each followed by `(\s|$)`.  The `(?i)` flag is
immaterial here because the handler only searches text that
`clean_text` has already lowercased. -/
def plusOneAt (s : List Char) : Bool :=
  plusHashNumAt s ||
  litBoundary ("#баллы".toList) s || litBoundary ("#балл".toList) s ||
  litBoundary ("#очки".toList) s ||
  litBoundary ("#score".toList) s ||
  litBoundary ("#points".toList) s || litBoundary ("#point".toList) s

/-- Scan for `PLUS_ONE_PATTERN`; the flag records whether the current
position is at the start of the string or preceded by whitespace
(the `(^|\s)` leading boundary). -/
def plusOneSearchAux : Bool → List Char → Bool
  | _, [] => false
  | prevWs, c :: rest =>
    (prevWs && plusOneAt (c :: rest)) || plusOneSearchAux (pySpace c) rest

/-- `PLUS_ONE_PATTERN.search(s) is not None`. -/
def plusOneSearch (s : List Char) : Bool := plusOneSearchAux true s

/-- One position of the inline challenge regex
`(?<!\w)#челлендж1(?!\w)`: the literal, with the negative lookahead
checked on the remaining suffix. -/
def challengeAt (s : List Char) : Bool :=
  match matchLit CHALLENGE_CANON s with
  | some r =>
    match r with
    | [] => true
    | d :: _ => !isWordChar d
  | none => false

/-- Scan for the challenge regex; the flag records whether the previous
character is a word character (the `(?<!\w)` negative lookbehind). -/
def challengeSearchAux : Bool → List Char → Bool
  | _, [] => false
  | prevWord, c :: rest =>
    (!prevWord && challengeAt (c :: rest)) || challengeSearchAux (isWordChar c) rest

/-- `re.search(r'(?<!\w)#челлендж1(?!\w)', s) is not None`. -/
def challengeSearch (s : List Char) : Bool := challengeSearchAux false s

/-- A Telegram user, as consumed by the handlers. -/
structure User where
  id : Int
  is_bot : Bool
  username : Option (List Char)
  full_name : List Char
deriving DecidableEq, Repr

/-- A row of the `scores` table. -/
structure ScoreRow where
  chat_id : Int
  user_id : Int
  points : Int
  username : List Char
  full_name : List Char
deriving DecidableEq, Repr

/-- A row of the `last_tag` table. -/
structure LastTagRow where
  chat_id : Int
  user_id : Int
  day : String
deriving DecidableEq, Repr

/-- The SQLite database: the two tables created by `init_db`. -/
structure DB where
  scores : List ScoreRow
  last_tag : List LastTagRow
deriving DecidableEq, Repr

/-- `SELECT .. FROM scores WHERE chat_id = ? AND user_id = ?`
(first matching row; under the primary-key invariant there is at most
one). -/
def lookupScore : List ScoreRow → Int → Int → Option ScoreRow
  | [], _, _ => none
  | r :: t, c, u =>
    if r.chat_id = c ∧ r.user_id = u then some r else lookupScore t c u

/-- `UPDATE scores SET points = points + ?, username = ?, full_name = ?
WHERE chat_id = ? AND user_id = ?`: every matching row is updated. -/
def updateScore : List ScoreRow → Int → Int → Int → List Char → List Char → List ScoreRow
  | [], _, _, _, _, _ => []
  | r :: t, c, u, a, un, fn =>
    (if r.chat_id = c ∧ r.user_id = u then
      { r with points := r.points + a, username := un, full_name := fn }
    else r) :: updateScore t c u a un fn

/-- Python's `user.username or ""`. -/
def usernameOr (u : User) : List Char := u.username.getD []

/-- `INSERT INTO scores(..) VALUES (?, ?, 0, ?, ?) ON CONFLICT(chat_id,
user_id) DO NOTHING`. -/
def insertScoreIfAbsent (l : List ScoreRow) (chat_id : Int) (u : User) : List ScoreRow :=
  match lookupScore l chat_id u.id with
  | some _ => l
  | none => l ++ [⟨chat_id, u.id, 0, usernameOr u, u.full_name⟩]

/-- `int(row[0]) if row else 0`. -/
def pointsOf : Option ScoreRow → Int
  | some r => r.points
  | none => 0

/-- `add_point` of the source: insert-if-absent with 0 points, add
`amount` to the row, re-select and return the stored total. -/
def add_point (db : DB) (chat_id : Int) (user : User) (amount : Int) : Int × DB :=
  let s1 := insertScoreIfAbsent db.scores chat_id user
  let s2 := updateScore s1 chat_id user.id amount (usernameOr user) user.full_name
  (pointsOf (lookupScore s2 chat_id user.id), { db with scores := s2 })

/-- `get_points` of the source: a pure `SELECT`, returning 0 when no
row exists; the database is returned to witness that the query writes
nothing. -/
def get_points (db : DB) (chat_id user_id : Int) : Int × DB :=
  (pointsOf (lookupScore db.scores chat_id user_id), db)

/-- `SELECT SUM(points) FROM scores WHERE chat_id = ?`; the `NULL` sum
of an empty selection and the source's `if row and row[0] else 0` both
collapse to the integer sum with empty sum 0. -/
def sumPointsFor : List ScoreRow → Int → Int
  | [], _ => 0
  | r :: t, c => (if r.chat_id = c then r.points else 0) + sumPointsFor t c

/-- `get_total` of the source. -/
def get_total (db : DB) (chat_id : Int) : Int × DB :=
  (sumPointsFor db.scores chat_id, db)

/-- `SELECT day FROM last_tag WHERE chat_id=? AND user_id=?`. -/
def lookupLastTag : List LastTagRow → Int → Int → Option String
  | [], _, _ => none
  | r :: t, c, u =>
    if r.chat_id = c ∧ r.user_id = u then some r.day else lookupLastTag t c u

/-- `INSERT INTO last_tag(..) VALUES (?, ?, ?) ON CONFLICT(chat_id,
user_id) DO UPDATE SET day=excluded.day`: update the (unique) matching
row, or append a fresh one. -/
def upsertLastTag : List LastTagRow → Int → Int → String → List LastTagRow
  | [], c, u, d => [⟨c, u, d⟩]
  | r :: t, c, u, d =>
    if r.chat_id = c ∧ r.user_id = u then { r with day := d } :: t
    else r :: upsertLastTag t c u d

/-- `can_post_tag` of the source, with `today` (the ISO date string of
`current_local_date()`) passed explicitly: return `false` and leave the
store untouched when the stored day equals today, otherwise stamp today
and return `true`. -/
def can_post_tag (db : DB) (today : String) (chat_id user_id : Int) : Bool × DB :=
  if lookupLastTag db.last_tag chat_id user_id = some today then (false, db)
  else (true, { db with last_tag := upsertLastTag db.last_tag chat_id user_id today })

/-- The observable outcome of processing one message: no qualifying tag,
rejected by the daily limit, or awarded `points_added` with the new
stored balance (the two latter correspond to the handler's two reply
branches). -/
inductive Outcome where
  | noMatch : Outcome
  | alreadyAwarded : Outcome
  | awarded (points_added : Int) (new_balance : Int) : Outcome
deriving DecidableEq, Repr

/-- A group text message as consumed by `handle_group_text`. -/
structure Msg where
  chat_id : Int
  chat_type : String
  user : User
  text : List Char
  entities : List MessageEntity
deriving DecidableEq, Repr

/-- `is_group` of the source. -/
def is_group (m : Msg) : Bool :=
  m.chat_type = "group" || m.chat_type = "supergroup"

/-- The tuple of +1 tags tested against the extracted tag set. -/
def plusTuple : List (List Char) :=
  ["#балл".toList, "#баллы".toList, "#очки".toList, "#score".toList,
   "#point".toList, "#points".toList, "#+1".toList]

/-- The handler's challenge condition:
`(CHALLENGE_CANON in tags) or re.search(r'(?<!\w)#челлендж1(?!\w)', cleaned)`
(converting the extracted list to a Python `set` does not change
membership). -/
def challengeHit (m : Msg) : Bool :=
  (extract_hashtags_from m.text m.entities).contains CHALLENGE_CANON ||
  challengeSearch (clean_text m.text)

/-- The handler's +1 condition:
`any(t in (..) for t in tags) or PLUS_ONE_PATTERN.search(cleaned)`. -/
def plusOneHit (m : Msg) : Bool :=
  (extract_hashtags_from m.text m.entities).any (fun t => plusTuple.contains t) ||
  plusOneSearch (clean_text m.text)

/-- `handle_group_text` of the source (the two early returns for
non-group chats and bot senders are combined into one guard; the media
handler `handle_group_media` runs the identical decision logic on the
caption). -/
def handle_group_text (db : DB) (today : String) (m : Msg) : Outcome × DB :=
  if is_group m = true ∧ m.user.is_bot = false then
    if challengeHit m then
      let r := can_post_tag db today m.chat_id m.user.id
      if r.1 then
        let p := add_point r.2 m.chat_id m.user 5
        (Outcome.awarded 5 p.1, p.2)
      else (Outcome.alreadyAwarded, r.2)
    else if plusOneHit m then
      let r := can_post_tag db today m.chat_id m.user.id
      if r.1 then
        let p := add_point r.2 m.chat_id m.user 1
        (Outcome.awarded 1 p.1, p.2)
      else (Outcome.alreadyAwarded, r.2)
    else (Outcome.noMatch, db)
  else (Outcome.noMatch, db)

/-- A message is qualifying when the handler reaches one of its two
award branches: group chat, human sender, and one of the two tag
conditions. -/
def qualifies (m : Msg) : Bool :=
  is_group m && !m.user.is_bot && (challengeHit m || plusOneHit m)

/-- The amount the handler awards for a qualifying message: the
challenge branch is tested first and pays 5, otherwise the +1 branch
pays 1. -/
def awardAmount (m : Msg) : Int := if challengeHit m then 5 else 1

/-- Observer: the stored balance of `(chat_id, user_id)` (the value
`get_points` returns). -/
def getPointsVal (db : DB) (chat_id user_id : Int) : Int :=
  pointsOf (lookupScore db.scores chat_id user_id)

/-- Observer: the stored last-award day of `(chat_id, user_id)`. -/
def lastAwardDay (db : DB) (chat_id user_id : Int) : Option String :=
  lookupLastTag db.last_tag chat_id user_id

/-- Process a sequence of messages (all on the same calendar day) in
order, collecting outcomes. -/
def runMessages (today : String) : DB → List Msg → List Outcome × DB
  | db, [] => ([], db)
  | db, m :: ms =>
    let r := handle_group_text db today m
    let rest := runMessages today r.2 ms
    (r.1 :: rest.1, rest.2)

/-- Two concurrently submitted messages.  The decision path of the
handler (`can_post_tag` followed by `add_point`, lines 271-274 /
281-284 of the source) is a run of synchronous sqlite calls with no
`await` in between, so the single-threaded asyncio event loop executes
each decision atomically; the only concurrency freedom is the order in
which the loop schedules the two handler coroutines, modelled by
`aFirst`.  Returns (outcome of `mA`, outcome of `mB`) and the final
store. -/
def runTwo (db : DB) (today : String) (mA mB : Msg) (aFirst : Bool) :
    (Outcome × Outcome) × DB :=
  if aFirst then
    let r1 := handle_group_text db today mA
    let r2 := handle_group_text r1.2 today mB
    ((r1.1, r2.1), r2.2)
  else
    let r1 := handle_group_text db today mB
    let r2 := handle_group_text r1.2 today mA
    ((r2.1, r1.1), r2.2)

/-- Recognizer for the `awarded` outcome. -/
def isAwardedB : Outcome → Bool
  | .awarded _ _ => true
  | _ => false

/-- Recognizer for the `alreadyAwarded` outcome. -/
def isAlreadyAwardedB : Outcome → Bool
  | .alreadyAwarded => true
  | _ => false

/-- Two score rows collide when they agree on the primary key. -/
def sameScoreKey (r s : ScoreRow) : Prop :=
  r.chat_id = s.chat_id ∧ r.user_id = s.user_id

/-- Two last-tag rows collide when they agree on the primary key. -/
def sameTagKey (r s : LastTagRow) : Prop :=
  r.chat_id = s.chat_id ∧ r.user_id = s.user_id

/-- `PRIMARY KEY (chat_id, user_id)` of the `scores` table. -/
def pkUniqueScores (l : List ScoreRow) : Prop :=
  l.Pairwise (fun r s => ¬ sameScoreKey r s)

/-- `PRIMARY KEY (chat_id, user_id)` of the `last_tag` table. -/
def pkUniqueTags (l : List LastTagRow) : Prop :=
  l.Pairwise (fun r s => ¬ sameTagKey r s)

/-- The store invariant: both primary keys, and non-negative points. -/
def StoreInv (db : DB) : Prop :=
  pkUniqueScores db.scores ∧ pkUniqueTags db.last_tag ∧
  ∀ r ∈ db.scores, 0 ≤ r.points

/-- The empty store, as created by `init_db`. -/
def db0 : DB := ⟨[], []⟩

/-- A concrete human user for the scenario theorems. -/
def userU : User := ⟨7, false, none, "U".toList⟩

/-- Scenario message 1: `"привет #челлендж1"` with its hashtag entity. -/
def msgChallenge : Msg :=
  ⟨100, "group", userU, "привет #челлендж1".toList, [⟨"hashtag", 7, 10⟩]⟩

/-- Scenario messages 2 and 3: `"#балл"` with its hashtag entity. -/
def msgBall : Msg :=
  ⟨100, "group", userU, "#балл".toList, [⟨"hashtag", 0, 5⟩]⟩

/-- A message carrying both the 5-point and a 1-point tag. -/
def msgBoth : Msg :=
  ⟨100, "group", userU, "#челлендж1 #балл".toList,
   [⟨"hashtag", 0, 10⟩, ⟨"hashtag", 11, 5⟩]⟩

/-- The `"#балл"` message posted in a second chat. -/
def msgBallChatB : Msg :=
  ⟨200, "group", userU, "#балл".toList, [⟨"hashtag", 0, 5⟩]⟩

/-! ## List-level lemmas about the table operations -/

theorem lookupScore_updateScore {l : List ScoreRow} {c u a : Int} {un fn : List Char} :
    lookupScore (updateScore l c u a un fn) c u =
      (lookupScore l c u).map
        (fun r => { r with points := r.points + a, username := un, full_name := fn }) := by
  induction l with
  | nil => simp [lookupScore, updateScore]
  | cons r t ih =>
    by_cases h : r.chat_id = c ∧ r.user_id = u
    · simp [lookupScore, updateScore, h]
    · simp [lookupScore, updateScore, h, ih]

theorem lookupScore_updateScore_ne {l : List ScoreRow} {c u a : Int} {un fn : List Char}
    {c' u' : Int} (h : ¬(c' = c ∧ u' = u)) :
    lookupScore (updateScore l c u a un fn) c' u' = lookupScore l c' u' := by
  induction l with
  | nil => simp [lookupScore, updateScore]
  | cons r t ih =>
    have hcc : ¬(c = c' ∧ u = u') := by
      rintro ⟨e1, e2⟩
      exact h ⟨e1.symm, e2.symm⟩
    by_cases hk : r.chat_id = c ∧ r.user_id = u
    · have hk' : ¬(r.chat_id = c' ∧ r.user_id = u') := by
        rintro ⟨e1, e2⟩
        exact h ⟨e1 ▸ hk.1, e2 ▸ hk.2⟩
      simp [lookupScore, updateScore, hk, hk', hcc, ih]
    · by_cases hk' : r.chat_id = c' ∧ r.user_id = u'
      · have hcc' : ¬(c' = c ∧ u' = u) := h
        simp [lookupScore, updateScore, hk, hk', hcc', ih]
      · simp [lookupScore, updateScore, hk, hk', ih]

theorem lookupScore_append {l₁ l₂ : List ScoreRow} {c u : Int} :
    lookupScore (l₁ ++ l₂) c u =
      (lookupScore l₁ c u).elim (lookupScore l₂ c u) some := by
  induction l₁ with
  | nil => simp [lookupScore]
  | cons r t ih =>
    by_cases hk : r.chat_id = c ∧ r.user_id = u
    · simp [lookupScore, hk]
    · simp [lookupScore, hk, ih]

theorem lookupScore_eq_none_iff {l : List ScoreRow} {c u : Int} :
    lookupScore l c u = none ↔ ∀ r ∈ l, ¬(r.chat_id = c ∧ r.user_id = u) := by
  induction l with
  | nil => simp [lookupScore]
  | cons r t ih =>
    by_cases hk : r.chat_id = c ∧ r.user_id = u
    · simp [lookupScore, hk]
    · simp [lookupScore, hk, ih]
      exact fun _ h1 h2 => hk ⟨h1, h2⟩

theorem updateScore_mem {l : List ScoreRow} {c u a : Int} {un fn : List Char} :
    ∀ x ∈ updateScore l c u a un fn,
      ∃ r ∈ l, x.chat_id = r.chat_id ∧ x.user_id = r.user_id ∧
        (x.points = r.points + a ∨ x = r) := by
  induction l with
  | nil => simp [updateScore]
  | cons r t ih =>
    intro x hx
    rw [updateScore] at hx
    rcases List.mem_cons.mp hx with hx | hx
    · by_cases hk : r.chat_id = c ∧ r.user_id = u
      · rw [if_pos hk] at hx
        exact ⟨r, List.mem_cons_self r t, by simp [hx]⟩
      · rw [if_neg hk] at hx
        exact ⟨r, List.mem_cons_self r t, by simp [hx]⟩
    · obtain ⟨s, hs, hprop⟩ := ih x hx
      exact ⟨s, List.mem_cons_of_mem r hs, hprop⟩

theorem lookupLastTag_upsert_self {l : List LastTagRow} {c u : Int} {d : String} :
    lookupLastTag (upsertLastTag l c u d) c u = some d := by
  induction l with
  | nil => simp [upsertLastTag, lookupLastTag]
  | cons r t ih =>
    by_cases hk : r.chat_id = c ∧ r.user_id = u
    · simp [upsertLastTag, lookupLastTag, hk]
    · simp [upsertLastTag, lookupLastTag, hk, ih]

theorem lookupLastTag_upsert_ne {l : List LastTagRow} {c u : Int} {d : String}
    {c' u' : Int} (h : ¬(c' = c ∧ u' = u)) :
    lookupLastTag (upsertLastTag l c u d) c' u' = lookupLastTag l c' u' := by
  induction l with
  | nil =>
    have hk' : ¬((c : Int) = c' ∧ (u : Int) = u') := by
      rintro ⟨e1, e2⟩
      exact h ⟨e1.symm, e2.symm⟩
    simp [upsertLastTag, lookupLastTag, hk']
  | cons r t ih =>
    have hcc : ¬(c = c' ∧ u = u') := by
      rintro ⟨e1, e2⟩
      exact h ⟨e1.symm, e2.symm⟩
    by_cases hk : r.chat_id = c ∧ r.user_id = u
    · have hk' : ¬(r.chat_id = c' ∧ r.user_id = u') := by
        rintro ⟨e1, e2⟩
        exact h ⟨e1 ▸ hk.1, e2 ▸ hk.2⟩
      simp [upsertLastTag, lookupLastTag, hk, hk', hcc]
    · by_cases hk' : r.chat_id = c' ∧ r.user_id = u'
      · have hcc' : ¬(c' = c ∧ u' = u) := h
        simp [upsertLastTag, lookupLastTag, hk, hk', hcc']
      · simp [upsertLastTag, lookupLastTag, hk, hk', ih]

theorem upsertLastTag_mem {l : List LastTagRow} {c u : Int} {d : String} :
    ∀ x ∈ upsertLastTag l c u d,
      (∃ r ∈ l, x.chat_id = r.chat_id ∧ x.user_id = r.user_id) ∨
      (x.chat_id = c ∧ x.user_id = u) := by
  induction l with
  | nil => simp [upsertLastTag]
  | cons r t ih =>
    intro x hx
    rw [upsertLastTag] at hx
    by_cases hk : r.chat_id = c ∧ r.user_id = u
    · rw [if_pos hk] at hx
      rcases List.mem_cons.mp hx with hx | hx
      · exact Or.inl ⟨r, List.mem_cons_self r t, by simp [hx]⟩
      · exact Or.inl ⟨x, List.mem_cons_of_mem r hx, rfl, rfl⟩
    · rw [if_neg hk] at hx
      rcases List.mem_cons.mp hx with hx | hx
      · exact Or.inl ⟨r, List.mem_cons_self r t, by simp [hx]⟩
      · rcases ih x hx with ⟨s, hs, hkey⟩ | hkey
        · exact Or.inl ⟨s, List.mem_cons_of_mem r hs, hkey⟩
        · exact Or.inr hkey

/-! ## Database-level lemmas -/

theorem getPointsVal_with_last_tag {db : DB} {X : List LastTagRow} {c u : Int} :
    getPointsVal { db with last_tag := X } c u = getPointsVal db c u := rfl

theorem lastAwardDay_with_last_tag {db : DB} {X : List LastTagRow} {c u : Int} :
    lastAwardDay { db with last_tag := X } c u = lookupLastTag X c u := rfl

theorem add_point_last_tag {db : DB} {c : Int} {user : User} {a : Int} :
    (add_point db c user a).2.last_tag = db.last_tag := rfl

theorem lastAwardDay_add_point {db : DB} {c : Int} {user : User} {a : Int} {c' u' : Int} :
    lastAwardDay (add_point db c user a).2 c' u' = lastAwardDay db c' u' := rfl

theorem add_point_fst {db : DB} {c : Int} {user : User} {a : Int} :
    (add_point db c user a).1 = getPointsVal db c user.id + a := by
  unfold add_point insertScoreIfAbsent getPointsVal
  cases hl : lookupScore db.scores c user.id with
  | some r => simp [hl, lookupScore_updateScore, pointsOf]
  | none => simp [hl, lookupScore_updateScore, lookupScore_append, lookupScore, pointsOf]

theorem add_point_snd_self {db : DB} {c : Int} {user : User} {a : Int} :
    getPointsVal (add_point db c user a).2 c user.id =
      getPointsVal db c user.id + a := by
  have h1 : getPointsVal (add_point db c user a).2 c user.id = (add_point db c user a).1 := rfl
  rw [h1, add_point_fst]

theorem add_point_snd_ne {db : DB} {c : Int} {user : User} {a : Int} {c' u' : Int}
    (h : ¬(c' = c ∧ u' = user.id)) :
    getPointsVal (add_point db c user a).2 c' u' = getPointsVal db c' u' := by
  unfold add_point insertScoreIfAbsent getPointsVal
  cases hl : lookupScore db.scores c user.id with
  | some r => simp [lookupScore_updateScore_ne h]
  | none =>
    have hnew : ¬((c : Int) = c' ∧ user.id = u') := by
      rintro ⟨e1, e2⟩
      exact h ⟨e1.symm, e2.symm⟩
    simp only [lookupScore_updateScore_ne h, lookupScore_append]
    cases hl' : lookupScore db.scores c' u' with
    | some r => simp
    | none => simp [lookupScore, hnew]

theorem can_post_tag_marked {db : DB} {today : String} {c u : Int}
    (h : lastAwardDay db c u = some today) :
    can_post_tag db today c u = (false, db) := by
  unfold lastAwardDay at h
  simp [can_post_tag, h]

theorem can_post_tag_unmarked {db : DB} {today : String} {c u : Int}
    (h : lastAwardDay db c u ≠ some today) :
    can_post_tag db today c u =
      (true, { db with last_tag := upsertLastTag db.last_tag c u today }) := by
  unfold lastAwardDay at h
  simp [can_post_tag, h]

/-! ## Handler-level lemmas -/

theorem qualifies_parts {m : Msg} (h : qualifies m = true) :
    is_group m = true ∧ m.user.is_bot = false ∧
      (challengeHit m = true ∨ plusOneHit m = true) := by
  simp only [qualifies, Bool.and_eq_true, Bool.or_eq_true, Bool.not_eq_true'] at h
  exact ⟨h.1.1, h.1.2, h.2⟩

theorem handle_already {db : DB} {today : String} {m : Msg}
    (hq : qualifies m = true)
    (hm : lastAwardDay db m.chat_id m.user.id = some today) :
    handle_group_text db today m = (Outcome.alreadyAwarded, db) := by
  obtain ⟨hg, hb, hcases⟩ := qualifies_parts hq
  have hcpt := can_post_tag_marked hm
  by_cases hch : challengeHit m = true
  · simp [handle_group_text, hg, hb, hch, hcpt]
  · have hpl : plusOneHit m = true := by
      rcases hcases with h | h
      · exact absurd h hch
      · exact h
    simp [handle_group_text, hg, hb, hch, hpl, hcpt]

theorem handle_award_spec {db : DB} {today : String} {m : Msg}
    (hq : qualifies m = true)
    (hm : lastAwardDay db m.chat_id m.user.id ≠ some today) :
    (handle_group_text db today m).1 =
      Outcome.awarded (awardAmount m)
        (getPointsVal db m.chat_id m.user.id + awardAmount m) ∧
    lastAwardDay (handle_group_text db today m).2 m.chat_id m.user.id = some today ∧
    getPointsVal (handle_group_text db today m).2 m.chat_id m.user.id =
      getPointsVal db m.chat_id m.user.id + awardAmount m := by
  obtain ⟨hg, hb, hcases⟩ := qualifies_parts hq
  have hcpt := can_post_tag_unmarked hm
  by_cases hch : challengeHit m = true
  · refine ⟨?_, ?_, ?_⟩
    · simp [handle_group_text, hg, hb, hch, hcpt, add_point_fst,
        getPointsVal_with_last_tag, awardAmount]
    · simp [handle_group_text, hg, hb, hch, hcpt, lastAwardDay_add_point,
        lastAwardDay_with_last_tag, lookupLastTag_upsert_self]
    · simp [handle_group_text, hg, hb, hch, hcpt, add_point_snd_self,
        getPointsVal_with_last_tag, awardAmount]
  · have hpl : plusOneHit m = true := by
      rcases hcases with h | h
      · exact absurd h hch
      · exact h
    refine ⟨?_, ?_, ?_⟩
    · simp [handle_group_text, hg, hb, hch, hpl, hcpt, add_point_fst,
        getPointsVal_with_last_tag, awardAmount]
    · simp [handle_group_text, hg, hb, hch, hpl, hcpt, lastAwardDay_add_point,
        lastAwardDay_with_last_tag, lookupLastTag_upsert_self]
    · simp [handle_group_text, hg, hb, hch, hpl, hcpt, add_point_snd_self,
        getPointsVal_with_last_tag, awardAmount]

theorem handle_frame {db : DB} {today : String} {m : Msg} {c' u' : Int}
    (hne : ¬(c' = m.chat_id ∧ u' = m.user.id)) :
    getPointsVal (handle_group_text db today m).2 c' u' = getPointsVal db c' u' ∧
    lastAwardDay (handle_group_text db today m).2 c' u' = lastAwardDay db c' u' := by
  by_cases hg : is_group m = true ∧ m.user.is_bot = false
  · by_cases hday : lastAwardDay db m.chat_id m.user.id = some today
    · have hcpt := can_post_tag_marked hday
      by_cases hch : challengeHit m = true
      · simp [handle_group_text, hg.1, hg.2, hch, hcpt]
      · by_cases hpl : plusOneHit m = true
        · simp [handle_group_text, hg.1, hg.2, hch, hpl, hcpt]
        · simp [handle_group_text, hg.1, hg.2, hch, hpl]
    · have hcpt := can_post_tag_unmarked hday
      by_cases hch : challengeHit m = true
      · constructor
        · simp [handle_group_text, hg.1, hg.2, hch, hcpt, add_point_snd_ne hne,
            getPointsVal_with_last_tag]
        · simp [handle_group_text, hg.1, hg.2, hch, hcpt, lastAwardDay_add_point,
            lastAwardDay_with_last_tag, lookupLastTag_upsert_ne hne]
          rfl
      · by_cases hpl : plusOneHit m = true
        · constructor
          · simp [handle_group_text, hg.1, hg.2, hch, hpl, hcpt, add_point_snd_ne hne,
              getPointsVal_with_last_tag]
          · simp [handle_group_text, hg.1, hg.2, hch, hpl, hcpt, lastAwardDay_add_point,
              lastAwardDay_with_last_tag, lookupLastTag_upsert_ne hne]
            rfl
        · simp [handle_group_text, hg.1, hg.2, hch, hpl]
  · simp [handle_group_text, hg]

theorem runMessages_already {today : String} {c u : Int} :
    ∀ (ms : List Msg) (db : DB),
      (∀ x ∈ ms, qualifies x = true ∧ x.chat_id = c ∧ x.user.id = u) →
      lastAwardDay db c u = some today →
      runMessages today db ms = (List.replicate ms.length Outcome.alreadyAwarded, db) := by
  intro ms
  induction ms with
  | nil => intro db _ _; simp [runMessages]
  | cons m t ih =>
    intro db hall hm
    obtain ⟨hqm, hcm, hum⟩ := hall m (List.mem_cons_self m t)
    have hm' : lastAwardDay db m.chat_id m.user.id = some today := by
      rw [hcm, hum]; exact hm
    have h1 : handle_group_text db today m = (Outcome.alreadyAwarded, db) :=
      handle_already hqm hm'
    have h2 := ih db (fun x hx => hall x (List.mem_cons_of_mem m hx)) hm
    simp [runMessages, h1, h2, List.replicate_succ]

theorem countP_replicate_already_awarded_zero {n : Nat} :
    (List.replicate n Outcome.alreadyAwarded).countP isAwardedB = 0 := by
  induction n with
  | zero => simp
  | succ k ih => simp [List.replicate_succ, List.countP_cons, ih, isAwardedB]

theorem countP_replicate_already_awarded {n : Nat} :
    (List.replicate n Outcome.alreadyAwarded).countP isAlreadyAwardedB = n := by
  induction n with
  | zero => simp
  | succ k ih => simp [List.replicate_succ, List.countP_cons, ih, isAlreadyAwardedB]

/-! ## Claim theorems -/

/-- C1: for every (chat, user) pair and every sequence of N ≥ 1
qualifying messages processed on the same calendar day (starting from a
store in which that pair has not yet been awarded today), exactly one
message yields the `awarded` outcome, the remaining N−1 yield
`alreadyAwarded`, and the final balance is the initial balance plus
exactly one award amount (the amount of the first message's matching
branch). -/
theorem C1_idempotent_daily_award (db : DB) (today : String) (c u : Int)
    (m : Msg) (ms : List Msg)
    (hall : ∀ x ∈ m :: ms, qualifies x = true ∧ x.chat_id = c ∧ x.user.id = u)
    (h0 : lastAwardDay db c u ≠ some today) :
    (runMessages today db (m :: ms)).1.countP isAwardedB = 1 ∧
    (runMessages today db (m :: ms)).1.countP isAlreadyAwardedB = ms.length ∧
    getPointsVal (runMessages today db (m :: ms)).2 c u =
      getPointsVal db c u + awardAmount m := by
  obtain ⟨hqm, hcm, hum⟩ := hall m (List.mem_cons_self m ms)
  subst hcm
  subst hum
  obtain ⟨hfst, hday, hpts⟩ := handle_award_spec hqm h0
  have htail := runMessages_already ms (handle_group_text db today m).2
    (fun x hx => hall x (List.mem_cons_of_mem m hx)) hday
  refine ⟨?_, ?_, ?_⟩
  · simp [runMessages, htail, hfst, List.countP_cons,
      countP_replicate_already_awarded_zero, isAwardedB]
  · simp [runMessages, htail, hfst, List.countP_cons,
      countP_replicate_already_awarded, isAlreadyAwardedB]
  · simp [runMessages, htail, hpts]

/-- C1 witness: two qualifying messages (`"привет #челлендж1"` then
`"#балл"`) on `2024-01-01` from user 7 in chat 100, starting from the
empty store. -/
theorem C1_idempotent_daily_award_witness :
    ((∀ x ∈ msgChallenge :: [msgBall],
        qualifies x = true ∧ x.chat_id = 100 ∧ x.user.id = 7) ∧
     lastAwardDay db0 100 7 ≠ some "2024-01-01") ∧
    ((runMessages "2024-01-01" db0 (msgChallenge :: [msgBall])).1.countP isAwardedB = 1 ∧
     (runMessages "2024-01-01" db0 (msgChallenge :: [msgBall])).1.countP
        isAlreadyAwardedB = [msgBall].length ∧
     getPointsVal (runMessages "2024-01-01" db0 (msgChallenge :: [msgBall])).2 100 7 =
       getPointsVal db0 100 7 + awardAmount msgChallenge) :=
  ⟨⟨by decide, by decide⟩,
   C1_idempotent_daily_award db0 "2024-01-01" 100 7 msgChallenge [msgBall]
     (by decide) (by decide)⟩

/-- C2: a message whose tag set matches both the 5-point challenge tag
and a 1-point tag yields a single `awarded` outcome worth the maximum
matching value 5 — the balance grows by exactly 5, never by the sum 6,
and the one message produces exactly one outcome, so there are no two
separate awards. -/
theorem C2_tie_break_max (db : DB) (today : String) (m : Msg)
    (hg : is_group m = true) (hb : m.user.is_bot = false)
    (hch : challengeHit m = true) (_hpl : plusOneHit m = true)
    (h0 : lastAwardDay db m.chat_id m.user.id ≠ some today) :
    (handle_group_text db today m).1 =
      Outcome.awarded 5 (getPointsVal db m.chat_id m.user.id + 5) ∧
    getPointsVal (handle_group_text db today m).2 m.chat_id m.user.id =
      getPointsVal db m.chat_id m.user.id + 5 := by
  have hq : qualifies m = true := by
    simp [qualifies, hg, hb, hch]
  obtain ⟨hfst, _, hpts⟩ := handle_award_spec hq h0
  have hamt : awardAmount m = 5 := by simp [awardAmount, hch]
  rw [hamt] at hfst hpts
  exact ⟨hfst, hpts⟩

/-- C2 witness: the message `"#челлендж1 #балл"` (both tags present as
entities) in the empty store: a single award of 5, balance 0 + 5. -/
theorem C2_tie_break_max_witness :
    (is_group msgBoth = true ∧ msgBoth.user.is_bot = false ∧
     challengeHit msgBoth = true ∧ plusOneHit msgBoth = true ∧
     lastAwardDay db0 msgBoth.chat_id msgBoth.user.id ≠ some "2024-01-01") ∧
    ((handle_group_text db0 "2024-01-01" msgBoth).1 =
       Outcome.awarded 5 (getPointsVal db0 msgBoth.chat_id msgBoth.user.id + 5) ∧
     getPointsVal (handle_group_text db0 "2024-01-01" msgBoth).2
         msgBoth.chat_id msgBoth.user.id =
       getPointsVal db0 msgBoth.chat_id msgBoth.user.id + 5) :=
  ⟨⟨by decide, by decide, by decide, by decide, by decide⟩,
   C2_tie_break_max db0 "2024-01-01" msgBoth
     (by decide) (by decide) (by decide) (by decide) (by decide)⟩

/-- C3: the spec scenario with tag table {#балл ↦ 1, #челлендж1 ↦ 5}
(the code's hard-wired values): from the empty store, message
`"привет #челлендж1"` on 2024-01-01 yields `awarded 5 5`; a second
message `"#балл"` the same day yields `alreadyAwarded` with the stored
balance still 5; a third message `"#балл"` on the next day yields
`awarded 1 6` with stored balance 6. -/
theorem C3_scenario :
    (handle_group_text db0 "2024-01-01" msgChallenge).1 = Outcome.awarded 5 5 ∧
    (handle_group_text (handle_group_text db0 "2024-01-01" msgChallenge).2
        "2024-01-01" msgBall).1 = Outcome.alreadyAwarded ∧
    getPointsVal (handle_group_text (handle_group_text db0 "2024-01-01" msgChallenge).2
        "2024-01-01" msgBall).2 100 7 = 5 ∧
    (handle_group_text (handle_group_text (handle_group_text db0 "2024-01-01"
        msgChallenge).2 "2024-01-01" msgBall).2 "2024-01-02" msgBall).1 =
      Outcome.awarded 1 6 ∧
    getPointsVal (handle_group_text (handle_group_text (handle_group_text db0
        "2024-01-01" msgChallenge).2 "2024-01-01" msgBall).2 "2024-01-02" msgBall).2
        100 7 = 6 := by
  decide

/-- C4: `clean_text` strips leading/trailing whitespace, removes the
zero-width characters, collapses `#` followed by whitespace into a bare
`#`, and lowercases (ASCII and Cyrillic); in particular extraction of
`"#ЧЕЛЛЕНДЖ1"` with a zero-width space after the `#` and extraction of
plain `"#челлендж1"` produce the same normalized tag. -/
theorem C4_normalization :
    clean_text ('#' :: '\u200B' :: "ЧЕЛЛЕНДЖ1".toList) = "#челлендж1".toList ∧
    extract_hashtags_from ('#' :: '\u200B' :: "ЧЕЛЛЕНДЖ1".toList)
        [⟨"hashtag", 0, 11⟩] = ["#челлендж1".toList] ∧
    extract_hashtags_from ("#челлендж1".toList) [⟨"hashtag", 0, 10⟩] =
      ["#челлендж1".toList] ∧
    clean_text "  #x  ".toList = "#x".toList ∧
    clean_text "# \tx".toList = "#x".toList ∧
    clean_text "#ЧЕЛЛЕНДЖ1".toList = "#челлендж1".toList := by
  decide

/-- C5 counterexample: the claim says a hashtag span running past the
end of the text is dropped and contributes no element.  On the 3-char
text `"#ab"`, the span (offset 1, length 10) runs past the end, yet the
extractor returns the clamped slice `"ab"` (one element, not zero), and
the fully out-of-range span (offset 5, length 3) contributes the empty
tag — Python slicing clamps instead of dropping. -/
theorem C5_counterexample :
    extract_hashtags_from "#ab".toList [⟨"hashtag", 1, 10⟩] = ["ab".toList] ∧
    extract_hashtags_from "#ab".toList [⟨"hashtag", 1, 10⟩] ≠ [] ∧
    extract_hashtags_from "#ab".toList [⟨"hashtag", 5, 3⟩] = [[]] := by
  decide

/-- C5 amended: a hashtag span whose offset/length runs past the end of
the text is clamped (Python slice semantics), not dropped: it
contributes the normalization of the truncated slice — the empty tag
when the offset is already past the end — no error is raised (the
extractor is total), and the remaining spans in the list are still
extracted by the unchanged loop `extractLoop`. -/
theorem C5_amended_clamp (text : List Char) (off len : Nat)
    (rest : List MessageEntity) (ht : text ≠ []) :
    (text.length ≤ off + len →
      extract_hashtags_from text (⟨"hashtag", off, len⟩ :: rest) =
        clean_text (text.drop off) :: extractLoop text rest) ∧
    (text.length ≤ off →
      extract_hashtags_from text (⟨"hashtag", off, len⟩ :: rest) =
        [] :: extractLoop text rest) := by
  constructor
  · intro hle
    have htake : (text.drop off).take len = text.drop off := by
      apply List.take_of_length_le
      simp [List.length_drop]
      omega
    simp [extract_hashtags_from, ht, extractLoop, htake]
  · intro hle
    have hdrop : text.drop off = [] := List.drop_of_length_le hle
    simp [extract_hashtags_from, ht, extractLoop, hdrop, clean_text]

/-- C5 amended witness: on `"#ab"`, the span (offset 5, length 3) is
past the end in both senses. -/
theorem C5_amended_clamp_witness :
    ("#ab".toList ≠ [] ∧ "#ab".toList.length ≤ 5 + 3 ∧ "#ab".toList.length ≤ 5) ∧
    ((("#ab".toList : List Char).length ≤ 5 + 3 →
       extract_hashtags_from "#ab".toList (⟨"hashtag", 5, 3⟩ :: []) =
         clean_text ("#ab".toList.drop 5) :: extractLoop "#ab".toList []) ∧
     (("#ab".toList : List Char).length ≤ 5 →
       extract_hashtags_from "#ab".toList (⟨"hashtag", 5, 3⟩ :: []) =
         [] :: extractLoop "#ab".toList [])) :=
  ⟨⟨by decide, by decide, by decide⟩,
   C5_amended_clamp "#ab".toList 5 3 [] (by decide)⟩

/-- C6: an award to user U in chat A leaves U's award mark and stored
score in a different chat B unchanged, and a qualifying message from U
in chat B on the same day still yields an award — eligibility is per
(chat_id, user_id), not global per user. -/
theorem C6_chat_independence (db : DB) (today : String) (A B u : Int) (m m' : Msg)
    (hAB : A ≠ B)
    (hq : qualifies m = true) (hcA : m.chat_id = A) (hu : m.user.id = u)
    (hq' : qualifies m' = true) (hcB : m'.chat_id = B) (hu' : m'.user.id = u)
    (hmA : lastAwardDay db A u ≠ some today)
    (hmB : lastAwardDay db B u ≠ some today) :
    isAwardedB (handle_group_text db today m).1 = true ∧
    lastAwardDay (handle_group_text db today m).2 B u = lastAwardDay db B u ∧
    getPointsVal (handle_group_text db today m).2 B u = getPointsVal db B u ∧
    isAwardedB (handle_group_text (handle_group_text db today m).2 today m').1 = true := by
  subst hcA
  subst hu
  subst hcB
  obtain ⟨hfst, _, _⟩ := handle_award_spec hq hmA
  have hne : ¬(m'.chat_id = m.chat_id ∧ m.user.id = m.user.id) := by
    rintro ⟨e1, _⟩
    exact hAB (e1.symm)
  obtain ⟨hfr1, hfr2⟩ := @handle_frame db today m m'.chat_id m.user.id hne
  refine ⟨by simp [hfst, isAwardedB], hfr2, hfr1, ?_⟩
  have hmB' : lastAwardDay (handle_group_text db today m).2 m'.chat_id m'.user.id ≠
      some today := by
    rw [hu', hfr2]
    exact hmB
  obtain ⟨hfst', _, _⟩ := handle_award_spec hq' hmB'
  simp [hfst', isAwardedB]

/-- C6 witness: awarding user 7 in chat 100 (`msgChallenge`) leaves chat
200 untouched, and the `"#балл"` message in chat 200 still awards. -/
theorem C6_chat_independence_witness :
    (100 ≠ (200 : Int) ∧ qualifies msgChallenge = true ∧
     qualifies msgBallChatB = true ∧
     lastAwardDay db0 100 7 ≠ some "2024-01-01" ∧
     lastAwardDay db0 200 7 ≠ some "2024-01-01") ∧
    (isAwardedB (handle_group_text db0 "2024-01-01" msgChallenge).1 = true ∧
     lastAwardDay (handle_group_text db0 "2024-01-01" msgChallenge).2 200 7 =
       lastAwardDay db0 200 7 ∧
     getPointsVal (handle_group_text db0 "2024-01-01" msgChallenge).2 200 7 =
       getPointsVal db0 200 7 ∧
     isAwardedB (handle_group_text (handle_group_text db0 "2024-01-01" msgChallenge).2
        "2024-01-01" msgBallChatB).1 = true) :=
  ⟨⟨by decide, by decide, by decide, by decide, by decide⟩,
   C6_chat_independence db0 "2024-01-01" 100 200 7 msgChallenge msgBallChatB
     (by decide) (by decide) (by decide) (by decide) (by decide) (by decide)
     (by decide) (by decide) (by decide)⟩

/-- C8: two qualifying messages from the same user in the same chat on
the same day, submitted concurrently.  The handler's decision path
(`can_post_tag` then `add_point`) is a run of synchronous sqlite calls
with no `await` point, so the single-threaded asyncio event loop
executes each decision atomically and the only scheduling freedom is
the order of the two decisions (`aFirst`); in either order, exactly one
message gets `awarded` and the other `alreadyAwarded` — never two
awards. -/
theorem C8_concurrent_single_award (db : DB) (today : String) (c u : Int)
    (mA mB : Msg) (aFirst : Bool)
    (hqA : qualifies mA = true) (hcA : mA.chat_id = c) (huA : mA.user.id = u)
    (hqB : qualifies mB = true) (hcB : mB.chat_id = c) (huB : mB.user.id = u)
    (h0 : lastAwardDay db c u ≠ some today) :
    (isAwardedB (runTwo db today mA mB aFirst).1.1 = true ∧
     isAlreadyAwardedB (runTwo db today mA mB aFirst).1.2 = true) ∨
    (isAlreadyAwardedB (runTwo db today mA mB aFirst).1.1 = true ∧
     isAwardedB (runTwo db today mA mB aFirst).1.2 = true) := by
  subst hcA
  subst huA
  cases aFirst with
  | true =>
    left
    obtain ⟨hfstA, hdayA, _⟩ := handle_award_spec hqA h0
    have hmB : lastAwardDay (handle_group_text db today mA).2 mB.chat_id mB.user.id =
        some today := by
      rw [hcB, huB]
      exact hdayA
    have hB := handle_already hqB hmB
    constructor
    · simp [runTwo, hfstA, isAwardedB]
    · simp [runTwo, hB, isAlreadyAwardedB]
  | false =>
    right
    have h0B : lastAwardDay db mB.chat_id mB.user.id ≠ some today := by
      rw [hcB, huB]
      exact h0
    obtain ⟨hfstB, hdayB, _⟩ := handle_award_spec hqB h0B
    have hmA : lastAwardDay (handle_group_text db today mB).2 mA.chat_id mA.user.id =
        some today := by
      rw [← hcB, ← huB]
      exact hdayB
    have hA := handle_already hqA hmA
    constructor
    · simp [runTwo, hA, isAlreadyAwardedB]
    · simp [runTwo, hfstB, isAwardedB]

/-- C8 witness: `msgChallenge` and `msgBall` submitted concurrently
with the challenge message scheduled first. -/
theorem C8_concurrent_single_award_witness :
    (qualifies msgChallenge = true ∧ qualifies msgBall = true ∧
     lastAwardDay db0 100 7 ≠ some "2024-01-01") ∧
    ((isAwardedB (runTwo db0 "2024-01-01" msgChallenge msgBall true).1.1 = true ∧
      isAlreadyAwardedB (runTwo db0 "2024-01-01" msgChallenge msgBall true).1.2 = true) ∨
     (isAlreadyAwardedB (runTwo db0 "2024-01-01" msgChallenge msgBall true).1.1 = true ∧
      isAwardedB (runTwo db0 "2024-01-01" msgChallenge msgBall true).1.2 = true)) :=
  ⟨⟨by decide, by decide, by decide⟩,
   C8_concurrent_single_award db0 "2024-01-01" 100 7 msgChallenge msgBall true
     (by decide) (by decide) (by decide) (by decide) (by decide) (by decide)
     (by decide)⟩

/-- C9: `can_post_tag` returns `false` exactly when the stored day for
(chat_id, user_id) equals today, in which case the store is unchanged;
when it returns `true` it has already overwritten the stored day with
today while leaving the `scores` table untouched — the daily allowance
is consumed by the gate itself, before and independently of
`add_point`, which runs later in a separate connection. -/
theorem C9_can_post_tag_semantics (db : DB) (today : String) (c u : Int) :
    ((can_post_tag db today c u).1 = false ↔ lastAwardDay db c u = some today) ∧
    (lastAwardDay db c u = some today → (can_post_tag db today c u).2 = db) ∧
    ((can_post_tag db today c u).1 = true →
      lastAwardDay (can_post_tag db today c u).2 c u = some today ∧
      (can_post_tag db today c u).2.scores = db.scores) := by
  by_cases hday : lastAwardDay db c u = some today
  · have h := can_post_tag_marked hday
    simp [h, hday]
  · have h := can_post_tag_unmarked hday
    simp [h, hday, lastAwardDay_with_last_tag, lookupLastTag_upsert_self]

/-- C9 witness: the gate evaluated on the empty store for (1, 2). -/
theorem C9_can_post_tag_semantics_witness :
    ((can_post_tag db0 "2024-01-01" 1 2).1 = false ↔
      lastAwardDay db0 1 2 = some "2024-01-01") ∧
    (lastAwardDay db0 1 2 = some "2024-01-01" →
      (can_post_tag db0 "2024-01-01" 1 2).2 = db0) ∧
    ((can_post_tag db0 "2024-01-01" 1 2).1 = true →
      lastAwardDay (can_post_tag db0 "2024-01-01" 1 2).2 1 2 = some "2024-01-01" ∧
      (can_post_tag db0 "2024-01-01" 1 2).2.scores = db0.scores) :=
  C9_can_post_tag_semantics db0 "2024-01-01" 1 2

theorem sumPointsFor_eq_zero {l : List ScoreRow} {c : Int}
    (h : ∀ r ∈ l, r.chat_id ≠ c) : sumPointsFor l c = 0 := by
  induction l with
  | nil => rfl
  | cons r t ih =>
    have hr := h r (List.mem_cons_self r t)
    simp [sumPointsFor, hr, ih fun x hx => h x (List.mem_cons_of_mem r hx)]

/-- C10: the balance query returns 0 for a pair with no score record
rather than failing, the total query returns 0 for a chat with no
score records, and neither query mutates the store (both are pure
`SELECT`s). -/
theorem C10_queries_default_zero (db : DB) (c u : Int) :
    (lookupScore db.scores c u = none → (get_points db c u).1 = 0) ∧
    (get_points db c u).2 = db ∧
    ((∀ r ∈ db.scores, r.chat_id ≠ c) → (get_total db c).1 = 0) ∧
    (get_total db c).2 = db := by
  refine ⟨?_, rfl, ?_, rfl⟩
  · intro h
    simp [get_points, h, pointsOf]
  · intro h
    simpa [get_total] using sumPointsFor_eq_zero h

/-- C10 witness: both queries on the empty store. -/
theorem C10_queries_default_zero_witness :
    (lookupScore db0.scores 1 2 = none → (get_points db0 1 2).1 = 0) ∧
    (get_points db0 1 2).2 = db0 ∧
    ((∀ r ∈ db0.scores, r.chat_id ≠ 1) → (get_total db0 1).1 = 0) ∧
    (get_total db0 1).2 = db0 :=
  C10_queries_default_zero db0 1 2

/-! ## Invariant preservation lemmas (for C7) -/

theorem pkUniqueScores_updateScore {l : List ScoreRow} {c u a : Int} {un fn : List Char}
    (h : pkUniqueScores l) : pkUniqueScores (updateScore l c u a un fn) := by
  unfold pkUniqueScores at h ⊢
  induction l with
  | nil => simp [updateScore]
  | cons r t ih =>
    rw [List.pairwise_cons] at h
    by_cases hk : r.chat_id = c ∧ r.user_id = u
    · rw [updateScore, if_pos hk, List.pairwise_cons]
      refine ⟨?_, ih h.2⟩
      intro x hx
      obtain ⟨s, hs, he1, he2, _⟩ := updateScore_mem x hx
      intro hsame
      obtain ⟨h1, h2⟩ := hsame
      exact h.1 s hs ⟨h1.trans he1, h2.trans he2⟩
    · rw [updateScore, if_neg hk, List.pairwise_cons]
      refine ⟨?_, ih h.2⟩
      intro x hx
      obtain ⟨s, hs, he1, he2, _⟩ := updateScore_mem x hx
      intro hsame
      obtain ⟨h1, h2⟩ := hsame
      exact h.1 s hs ⟨h1.trans he1, h2.trans he2⟩

theorem insertScoreIfAbsent_mem {l : List ScoreRow} {c : Int} {user : User} :
    ∀ x ∈ insertScoreIfAbsent l c user,
      x ∈ l ∨ x = ⟨c, user.id, 0, usernameOr user, user.full_name⟩ := by
  intro x hx
  unfold insertScoreIfAbsent at hx
  cases hl : lookupScore l c user.id with
  | some r =>
    rw [hl] at hx
    exact Or.inl hx
  | none =>
    rw [hl] at hx
    rcases List.mem_append.mp hx with h | h
    · exact Or.inl h
    · exact Or.inr (by simpa using h)

theorem pkUniqueScores_insert {l : List ScoreRow} {c : Int} {user : User}
    (h : pkUniqueScores l) : pkUniqueScores (insertScoreIfAbsent l c user) := by
  unfold insertScoreIfAbsent
  cases hl : lookupScore l c user.id with
  | some r => exact h
  | none =>
    unfold pkUniqueScores at h ⊢
    rw [List.pairwise_append]
    refine ⟨h, by simp, ?_⟩
    intro x hx y hy
    have hkeys := (lookupScore_eq_none_iff.mp hl) x hx
    have hy' : y = ⟨c, user.id, 0, usernameOr user, user.full_name⟩ := by simpa using hy
    intro hsame
    obtain ⟨h1, h2⟩ := hsame
    subst hy'
    exact hkeys ⟨h1, h2⟩

theorem pkUniqueTags_upsertLastTag {l : List LastTagRow} {c u : Int} {d : String}
    (h : pkUniqueTags l) : pkUniqueTags (upsertLastTag l c u d) := by
  unfold pkUniqueTags at h ⊢
  induction l with
  | nil => simp [upsertLastTag]
  | cons r t ih =>
    rw [List.pairwise_cons] at h
    by_cases hk : r.chat_id = c ∧ r.user_id = u
    · rw [upsertLastTag, if_pos hk, List.pairwise_cons]
      refine ⟨?_, h.2⟩
      intro x hx
      intro hsame
      obtain ⟨h1, h2⟩ := hsame
      exact h.1 x hx ⟨h1, h2⟩
    · rw [upsertLastTag, if_neg hk, List.pairwise_cons]
      refine ⟨?_, ih h.2⟩
      intro x hx
      rcases upsertLastTag_mem x hx with ⟨s, hs, he1, he2⟩ | ⟨he1, he2⟩
      · intro hsame
        obtain ⟨h1, h2⟩ := hsame
        exact h.1 s hs ⟨h1.trans he1, h2.trans he2⟩
      · intro hsame
        obtain ⟨h1, h2⟩ := hsame
        exact hk ⟨h1.trans he1, h2.trans he2⟩

theorem add_point_nonneg {db : DB} {c : Int} {user : User} {a : Int}
    (h : ∀ r ∈ db.scores, 0 ≤ r.points) (ha : 0 ≤ a) :
    ∀ r ∈ (add_point db c user a).2.scores, 0 ≤ r.points := by
  intro x hx
  have hx' : x ∈ updateScore (insertScoreIfAbsent db.scores c user) c user.id a
      (usernameOr user) user.full_name := hx
  obtain ⟨s, hs, _, _, hpts⟩ := updateScore_mem x hx'
  rcases insertScoreIfAbsent_mem s hs with hmem | hnew
  · rcases hpts with he | he
    · rw [he]
      exact add_nonneg (h s hmem) ha
    · rw [he]
      exact h s hmem
  · rcases hpts with he | he
    · rw [he, hnew]
      simpa using ha
    · rw [he, hnew]

theorem getPointsVal_mono_add_point {db : DB} {c : Int} {user : User} {a : Int}
    (ha : 0 ≤ a) (c' u' : Int) :
    getPointsVal db c' u' ≤ getPointsVal (add_point db c user a).2 c' u' := by
  by_cases hk : c' = c ∧ u' = user.id
  · obtain ⟨e1, e2⟩ := hk
    subst e1
    subst e2
    rw [add_point_snd_self]
    exact le_add_of_nonneg_right ha
  · rw [add_point_snd_ne hk]

theorem StoreInv_with_upsert {db : DB} {c u : Int} {d : String} (h : StoreInv db) :
    StoreInv { db with last_tag := upsertLastTag db.last_tag c u d } := by
  obtain ⟨h1, h2, h3⟩ := h
  exact ⟨h1, pkUniqueTags_upsertLastTag h2, h3⟩

theorem StoreInv_add_point {db : DB} {c : Int} {user : User} {a : Int}
    (h : StoreInv db) (ha : 0 ≤ a) : StoreInv (add_point db c user a).2 := by
  obtain ⟨h1, h2, h3⟩ := h
  exact ⟨pkUniqueScores_updateScore (pkUniqueScores_insert h1), h2,
    add_point_nonneg h3 ha⟩

/-- C7: processing any message preserves the store invariant (one score
record per (chat_id, user_id) — the primary keys stay unique — and
non-negative points), never decreases any stored points value, and
changes points only through a successful award whose amount is
positive: on a non-award outcome the `scores` table is unchanged. -/
theorem C7_store_invariant (db : DB) (today : String) (m : Msg)
    (hinv : StoreInv db) :
    StoreInv (handle_group_text db today m).2 ∧
    (∀ c u : Int,
      getPointsVal db c u ≤ getPointsVal (handle_group_text db today m).2 c u) ∧
    (∀ a n : Int, (handle_group_text db today m).1 = Outcome.awarded a n → 0 < a) ∧
    ((∀ a n : Int, (handle_group_text db today m).1 ≠ Outcome.awarded a n) →
      (handle_group_text db today m).2.scores = db.scores) := by
  by_cases hg : is_group m = true ∧ m.user.is_bot = false
  · by_cases hch : challengeHit m = true
    · by_cases hday : lastAwardDay db m.chat_id m.user.id = some today
      · have hq : qualifies m = true := by simp [qualifies, hg.1, hg.2, hch]
        have heq := handle_already hq hday
        rw [heq]
        exact ⟨hinv, fun c u => le_refl _, by intro a n h; simp at h, fun _ => rfl⟩
      · have hq : qualifies m = true := by simp [qualifies, hg.1, hg.2, hch]
        obtain ⟨hfst, _, _⟩ := handle_award_spec hq hday
        have hcpt := can_post_tag_unmarked hday
        have hsnd : (handle_group_text db today m).2 =
            (add_point
              { db with last_tag := upsertLastTag db.last_tag m.chat_id m.user.id today }
              m.chat_id m.user 5).2 := by
          simp [handle_group_text, hg.1, hg.2, hch, hcpt]
        refine ⟨?_, ?_, ?_, ?_⟩
        · rw [hsnd]
          exact StoreInv_add_point (StoreInv_with_upsert hinv) (by norm_num)
        · intro c u
          rw [hsnd]
          exact getPointsVal_mono_add_point (by norm_num) c u
        · intro a n h
          rw [hfst] at h
          injection h with h1 h2
          have hamt : awardAmount m = 5 := by simp [awardAmount, hch]
          rw [hamt] at h1
          omega
        · intro hno
          exact absurd hfst (hno _ _)
    · by_cases hpl : plusOneHit m = true
      · by_cases hday : lastAwardDay db m.chat_id m.user.id = some today
        · have hq : qualifies m = true := by simp [qualifies, hg.1, hg.2, hch, hpl]
          have heq := handle_already hq hday
          rw [heq]
          exact ⟨hinv, fun c u => le_refl _, by intro a n h; simp at h, fun _ => rfl⟩
        · have hq : qualifies m = true := by simp [qualifies, hg.1, hg.2, hch, hpl]
          obtain ⟨hfst, _, _⟩ := handle_award_spec hq hday
          have hcpt := can_post_tag_unmarked hday
          have hsnd : (handle_group_text db today m).2 =
              (add_point
                { db with last_tag := upsertLastTag db.last_tag m.chat_id m.user.id today }
                m.chat_id m.user 1).2 := by
            simp [handle_group_text, hg.1, hg.2, hch, hpl, hcpt]
          refine ⟨?_, ?_, ?_, ?_⟩
          · rw [hsnd]
            exact StoreInv_add_point (StoreInv_with_upsert hinv) (by norm_num)
          · intro c u
            rw [hsnd]
            exact getPointsVal_mono_add_point (by norm_num) c u
          · intro a n h
            rw [hfst] at h
            injection h with h1 h2
            have hamt : awardAmount m = 1 := by simp [awardAmount, hch]
            rw [hamt] at h1
            omega
          · intro hno
            exact absurd hfst (hno _ _)
      · have heq : handle_group_text db today m = (Outcome.noMatch, db) := by
          simp [handle_group_text, hg.1, hg.2, hch, hpl]
        rw [heq]
        exact ⟨hinv, fun c u => le_refl _, by intro a n h; simp at h, fun _ => rfl⟩
  · have heq : handle_group_text db today m = (Outcome.noMatch, db) := by
      simp [handle_group_text, hg]
    rw [heq]
    exact ⟨hinv, fun c u => le_refl _, by intro a n h; simp at h, fun _ => rfl⟩

/-- C7 witness: the challenge message processed on the empty store. -/
theorem C7_store_invariant_witness :
    StoreInv db0 ∧
    (StoreInv (handle_group_text db0 "2024-01-01" msgChallenge).2 ∧
     (∀ c u : Int, getPointsVal db0 c u ≤
        getPointsVal (handle_group_text db0 "2024-01-01" msgChallenge).2 c u) ∧
     (∀ a n : Int,
        (handle_group_text db0 "2024-01-01" msgChallenge).1 = Outcome.awarded a n →
          0 < a) ∧
     ((∀ a n : Int,
        (handle_group_text db0 "2024-01-01" msgChallenge).1 ≠ Outcome.awarded a n) →
      (handle_group_text db0 "2024-01-01" msgChallenge).2.scores = db0.scores)) :=
  ⟨⟨List.Pairwise.nil, List.Pairwise.nil, by simp [db0]⟩,
   C7_store_invariant db0 "2024-01-01" msgChallenge
     ⟨List.Pairwise.nil, List.Pairwise.nil, by simp [db0]⟩⟩
